import Mathlib

/-!
Shallow embedding of the time-on-task aggregation engines of this repository.

Three JavaScript engines are embedded:
* `PerStudent` — src/src/perStudent.js (vocabulary started/paused/unpaused/finished,
  span validity check `clientTime > startTime && clientTime - startTime`, i.e.
  effectively unbounded);
* `Combined` — src/combined.js (vocabulary started/application-paused/
  application-unpaused/finished, 3600-second span cap, aggregation dimension
  chosen by an `idField` parameter);
* `PerClass` — src/perClass.js (same as `Combined` but hardcoded to classId).

JavaScript plain objects used as dictionaries (`activeSessions`, `timeOnTask`)
are embedded as association lists that mirror the ECMAScript property
semantics: assigning a fresh key appends it, assigning an existing key updates
the stored value in place (keeping the key position), and `delete` removes the
key.  Timestamps (`client_time`) are embedded as integers: every claim under
study concerns integer timestamp inputs, on which the JavaScript float64
arithmetic of the source is exact.
-/

/-- Property lookup on a JavaScript object embedded as an association list:
`o[k]`, returning `none` for an absent key (JS `undefined`). -/
def lookupKey {κ α : Type} [DecidableEq κ] : List (κ × α) → κ → Option α
  | [], _ => none
  | (k, v) :: rest, k0 => if k = k0 then some v else lookupKey rest k0

/-- Property assignment `o[k] = v` on a JavaScript object: an existing key is
updated in place (its insertion position is kept), a fresh key is appended. -/
def setKey {κ α : Type} [DecidableEq κ] : List (κ × α) → κ → α → List (κ × α)
  | [], k0, v0 => [(k0, v0)]
  | (k, v) :: rest, k0, v0 =>
      if k = k0 then (k0, v0) :: rest else (k, v) :: setKey rest k0 v0

/-- Property deletion `delete o[k]` on a JavaScript object. -/
def eraseKey {κ α : Type} [DecidableEq κ] : List (κ × α) → κ → List (κ × α)
  | [], _ => []
  | (k, v) :: rest, k0 => if k = k0 then rest else (k, v) :: eraseKey rest k0

/-- The keys of an embedded JavaScript object, in insertion order. -/
def keysOf {κ α : Type} (l : List (κ × α)) : List κ := l.map Prod.fst

/-- A row of the `student_events` table as selected by the fetch queries
(`userId`, `classId`, `taskId`, `action`, `client_time`). -/
structure StudentEvent where
  userId : Int
  classId : Int
  taskId : String
  action : String
  client_time : Int
deriving DecidableEq, Repr

/-- An in-progress session record, as built by `startSession`:
`{ startTime: clientTime, pausedTime: 0, isPaused: false }`.  The
`pauseStartTime` property only exists in the JS record after a pause; it is
embedded as a field that is only read while `isPaused` is set. -/
structure Session where
  startTime : Int
  pausedTime : Int
  isPaused : Bool
  pauseStartTime : Int
deriving DecidableEq, Repr

/-- The two mutable maps threaded through `processEvents`:
`activeSessions` (keyed by the string `id ++ "-" ++ taskId`) and
`timeOnTask` (keyed by the integer identifier). -/
structure EngineState where
  activeSessions : List (String × Session)
  timeOnTask : List (Int × Int)
deriving DecidableEq, Repr

/-- The initial state of a `processEvents` run: both maps empty. -/
def initialState : EngineState := { activeSessions := [], timeOnTask := [] }

/-- Zero-padding of a two-digit field of the clock rendering. -/
def pad2 (n : Nat) : String := if n < 10 then "0" ++ toString n else toString n

/-- The rendering `new Date(totalSeconds * 1000).toISOString().substr(11, 8)`
used by every `formatTimeOnTaskResult`: the HH:MM:SS time-of-day of the UTC
instant `totalSeconds` seconds after the epoch, i.e. a 24-hour-wrap clock
string of `totalSeconds` (reduced modulo 86400; `Int.emod` is non-negative for
a positive modulus, matching the Date behaviour on negative inputs). -/
def hhmmss (totalSeconds : Int) : String :=
  let s := (totalSeconds % 86400).toNat
  pad2 (s / 3600) ++ ":" ++ pad2 (s % 3600 / 60) ++ ":" ++ pad2 (s % 60)

/-- Whether an integer property key is an ECMAScript array index (canonical
numeric string in `[0, 2^32 - 1)`).  `Object.entries` lists such keys first,
in ascending numeric order, before the remaining string keys in insertion
order (ECMA-262, OrdinaryOwnPropertyKeys). -/
def isArrayIndex (k : Int) : Bool := decide (0 ≤ k) && decide (k < 4294967295)

/-- The ascending-integer-key ordering in which ECMAScript enumerates
array-index property keys. -/
def keyLE (p q : Int × Int) : Prop := p.1 ≤ q.1

instance : DecidableRel keyLE := fun p q => inferInstanceAs (Decidable (p.1 ≤ q.1))

instance : IsTotal (Int × Int) keyLE := ⟨fun a b => le_total a.1 b.1⟩

instance : IsTrans (Int × Int) keyLE := ⟨fun _ _ _ hab hbc => le_trans hab hbc⟩

/-- Stable sort of an association list by ascending integer key. -/
def sortByKey (l : List (Int × Int)) : List (Int × Int) :=
  List.insertionSort keyLE l

/-- `Object.entries` on an embedded JavaScript object with integer-valued
property keys: array-index keys come first, in ascending numeric order, then
the remaining keys in insertion order (ECMA-262, OrdinaryOwnPropertyKeys). -/
def entriesJS (m : List (Int × Int)) : List (Int × Int) :=
  sortByKey (m.filter fun p => isArrayIndex p.1) ++
    m.filter fun p => !isArrayIndex p.1

namespace PerStudent

/-- src/src/perStudent.js `startSession`: open a session for `key` only if
none is active (duplicate `started` is swallowed). -/
def startSession (key : String) (clientTime : Int)
    (activeSessions : List (String × Session)) : List (String × Session) :=
  match lookupKey activeSessions key with
  | none => setKey activeSessions key
      { startTime := clientTime, pausedTime := 0, isPaused := false,
        pauseStartTime := 0 }
  | some _ => activeSessions

/-- src/src/perStudent.js `pauseSession`: mark the session paused and record
`pauseStartTime`, only if a session is active and not already paused. -/
def pauseSession (key : String) (clientTime : Int)
    (activeSessions : List (String × Session)) : List (String × Session) :=
  match lookupKey activeSessions key with
  | some s =>
      if s.isPaused then activeSessions
      else setKey activeSessions key
        { s with isPaused := true, pauseStartTime := clientTime }
  | none => activeSessions

/-- src/src/perStudent.js `unpauseSession`: add the completed pause delta to
`pausedTime` and clear the paused mark, only if a session is active and
currently paused. -/
def unpauseSession (key : String) (clientTime : Int)
    (activeSessions : List (String × Session)) : List (String × Session) :=
  match lookupKey activeSessions key with
  | some s =>
      if s.isPaused then
        setKey activeSessions key
          { s with pausedTime := s.pausedTime + (clientTime - s.pauseStartTime),
                   isPaused := false }
      else activeSessions
  | none => activeSessions

/-- src/src/perStudent.js `finishSession`: if a session is active for `key`,
remove it, and when `clientTime > startTime && clientTime - startTime` (the
second conjunct is JS number truthiness, i.e. the difference is nonzero) add
`max(0, clientTime - startTime - pausedTime)` to `timeOnTask[userId]`,
initializing an absent (or falsy) entry to 0 first. -/
def finishSession (key : String) (clientTime : Int)
    (activeSessions : List (String × Session)) (timeOnTask : List (Int × Int))
    (userId : Int) : List (String × Session) × List (Int × Int) :=
  match lookupKey activeSessions key with
  | some s =>
      let newTimeOnTask :=
        if clientTime > s.startTime ∧ clientTime - s.startTime ≠ 0 then
          let sessionDuration := clientTime - s.startTime - s.pausedTime
          let current := (lookupKey timeOnTask userId).getD 0
          setKey timeOnTask userId (current + max 0 sessionDuration)
        else timeOnTask
      (eraseKey activeSessions key, newTimeOnTask)
  | none => (activeSessions, timeOnTask)

/-- src/src/perStudent.js `processEvent`: build the key `userId ++ "-" ++
taskId` and dispatch on the action vocabulary
started/paused/unpaused/finished. -/
def processEvent (event : StudentEvent) (st : EngineState) : EngineState :=
  let key := toString event.userId ++ "-" ++ event.taskId
  if event.action = "started" then
    { st with activeSessions := startSession key event.client_time st.activeSessions }
  else if event.action = "paused" then
    { st with activeSessions := pauseSession key event.client_time st.activeSessions }
  else if event.action = "unpaused" then
    { st with activeSessions := unpauseSession key event.client_time st.activeSessions }
  else if event.action = "finished" then
    let r := finishSession key event.client_time st.activeSessions
      st.timeOnTask event.userId
    { activeSessions := r.1, timeOnTask := r.2 }
  else st

/-- src/src/perStudent.js `processEvents`: a single left fold of
`processEvent` over the ordered event list, starting from empty maps. -/
def processEvents (events : List StudentEvent) : EngineState :=
  List.foldl (fun st event => processEvent event st) initialState events

/-- One record of the formatted per-student result. -/
structure StudentTimeRecord where
  userId : Int
  totalTimeOnTask : String
deriving DecidableEq, Repr

/-- src/src/perStudent.js `formatTimeOnTaskResult`: `Object.entries` of the
total map (array-index keys ascending first — see `entriesJS`), each entry
rendered as `{ userId, totalTimeOnTask: HH:MM:SS }`. -/
def formatTimeOnTaskResult (timeOnTask : List (Int × Int)) :
    List StudentTimeRecord :=
  (entriesJS timeOnTask).map fun p =>
    { userId := p.1, totalTimeOnTask := hhmmss p.2 }

end PerStudent

/-- The `idField` parameter of combined.js `processEvents`: the identifier
field the aggregation is keyed on, `"userId"` or `"classId"` (the only two
values passed by `calculateTimeOnTask`). -/
inductive IdField where
  | userId
  | classId
deriving DecidableEq, Repr

/-- The field access `event[idField]` of combined.js `processEvent`. -/
def idOf (idField : IdField) (event : StudentEvent) : Int :=
  match idField with
  | .userId => event.userId
  | .classId => event.classId

namespace Combined

/-- combined.js `startSession`: open a session for `key` only if none is
active (duplicate `started` is swallowed). -/
def startSession (key : String) (clientTime : Int)
    (activeSessions : List (String × Session)) : List (String × Session) :=
  match lookupKey activeSessions key with
  | none => setKey activeSessions key
      { startTime := clientTime, pausedTime := 0, isPaused := false,
        pauseStartTime := 0 }
  | some _ => activeSessions

/-- combined.js `pauseSession`: mark the session paused and record
`pauseStartTime`, only if a session is active and not already paused. -/
def pauseSession (key : String) (clientTime : Int)
    (activeSessions : List (String × Session)) : List (String × Session) :=
  match lookupKey activeSessions key with
  | some s =>
      if s.isPaused then activeSessions
      else setKey activeSessions key
        { s with isPaused := true, pauseStartTime := clientTime }
  | none => activeSessions

/-- combined.js `unpauseSession`: add the completed pause delta to
`pausedTime` and clear the paused mark, only if a session is active and
currently paused. -/
def unpauseSession (key : String) (clientTime : Int)
    (activeSessions : List (String × Session)) : List (String × Session) :=
  match lookupKey activeSessions key with
  | some s =>
      if s.isPaused then
        setKey activeSessions key
          { s with pausedTime := s.pausedTime + (clientTime - s.pauseStartTime),
                   isPaused := false }
      else activeSessions
  | none => activeSessions

/-- combined.js `finishSession`: if a session is active for `key`, remove it,
and when `clientTime > startTime && clientTime - startTime < 3600` (max one
hour per session) add `max(0, clientTime - startTime - pausedTime)` to
`timeOnTask[id]`, initializing an absent (or falsy) entry to 0 first. -/
def finishSession (key : String) (clientTime : Int)
    (activeSessions : List (String × Session)) (timeOnTask : List (Int × Int))
    (id : Int) : List (String × Session) × List (Int × Int) :=
  match lookupKey activeSessions key with
  | some s =>
      let newTimeOnTask :=
        if clientTime > s.startTime ∧ clientTime - s.startTime < 3600 then
          let sessionDuration := clientTime - s.startTime - s.pausedTime
          let current := (lookupKey timeOnTask id).getD 0
          setKey timeOnTask id (current + max 0 sessionDuration)
        else timeOnTask
      (eraseKey activeSessions key, newTimeOnTask)
  | none => (activeSessions, timeOnTask)

/-- combined.js `processEvent`: build the key `event[idField] ++ "-" ++
taskId` and dispatch on the action vocabulary
started/application-paused/application-unpaused/finished. -/
def processEvent (idField : IdField) (event : StudentEvent)
    (st : EngineState) : EngineState :=
  let id := idOf idField event
  let key := toString id ++ "-" ++ event.taskId
  if event.action = "started" then
    { st with activeSessions := startSession key event.client_time st.activeSessions }
  else if event.action = "application-paused" then
    { st with activeSessions := pauseSession key event.client_time st.activeSessions }
  else if event.action = "application-unpaused" then
    { st with activeSessions := unpauseSession key event.client_time st.activeSessions }
  else if event.action = "finished" then
    let r := finishSession key event.client_time st.activeSessions
      st.timeOnTask id
    { activeSessions := r.1, timeOnTask := r.2 }
  else st

/-- combined.js `processEvents`: a single left fold of `processEvent` over
the ordered event list, starting from empty maps. -/
def processEvents (events : List StudentEvent) (idField : IdField) :
    EngineState :=
  List.foldl (fun st event => processEvent idField event st) initialState events

/-- One record of the formatted combined result. -/
structure EntityTimeRecord where
  id : Int
  totalTimeOnTask : String
deriving DecidableEq, Repr

/-- combined.js `formatTimeOnTaskResult`: `Object.entries` of the total map
(array-index keys ascending first — see `entriesJS`), each entry rendered as
`{ id, totalTimeOnTask: HH:MM:SS }`. -/
def formatTimeOnTaskResult (timeOnTask : List (Int × Int)) :
    List EntityTimeRecord :=
  (entriesJS timeOnTask).map fun p =>
    { id := p.1, totalTimeOnTask := hhmmss p.2 }

end Combined

namespace PerClass

/-- src/perClass.js `startSession`: open a session for `key` only if none is
active (duplicate `started` is swallowed). -/
def startSession (key : String) (clientTime : Int)
    (activeSessions : List (String × Session)) : List (String × Session) :=
  match lookupKey activeSessions key with
  | none => setKey activeSessions key
      { startTime := clientTime, pausedTime := 0, isPaused := false,
        pauseStartTime := 0 }
  | some _ => activeSessions

/-- src/perClass.js `pauseSession`: mark the session paused and record
`pauseStartTime`, only if a session is active and not already paused. -/
def pauseSession (key : String) (clientTime : Int)
    (activeSessions : List (String × Session)) : List (String × Session) :=
  match lookupKey activeSessions key with
  | some s =>
      if s.isPaused then activeSessions
      else setKey activeSessions key
        { s with isPaused := true, pauseStartTime := clientTime }
  | none => activeSessions

/-- src/perClass.js `unpauseSession`: add the completed pause delta to
`pausedTime` and clear the paused mark, only if a session is active and
currently paused. -/
def unpauseSession (key : String) (clientTime : Int)
    (activeSessions : List (String × Session)) : List (String × Session) :=
  match lookupKey activeSessions key with
  | some s =>
      if s.isPaused then
        setKey activeSessions key
          { s with pausedTime := s.pausedTime + (clientTime - s.pauseStartTime),
                   isPaused := false }
      else activeSessions
  | none => activeSessions

/-- src/perClass.js `finishSession`: if a session is active for `key`, remove
it, and when `clientTime > startTime && clientTime - startTime < 3600` (max
one hour per session) add `max(0, clientTime - startTime - pausedTime)` to
`timeOnTask[id]`, initializing an absent (or falsy) entry to 0 first. -/
def finishSession (key : String) (clientTime : Int)
    (activeSessions : List (String × Session)) (timeOnTask : List (Int × Int))
    (id : Int) : List (String × Session) × List (Int × Int) :=
  match lookupKey activeSessions key with
  | some s =>
      let newTimeOnTask :=
        if clientTime > s.startTime ∧ clientTime - s.startTime < 3600 then
          let sessionDuration := clientTime - s.startTime - s.pausedTime
          let current := (lookupKey timeOnTask id).getD 0
          setKey timeOnTask id (current + max 0 sessionDuration)
        else timeOnTask
      (eraseKey activeSessions key, newTimeOnTask)
  | none => (activeSessions, timeOnTask)

/-- src/perClass.js `processEvent`: `id` is `event.classId`, key is
`classId ++ "-" ++ taskId`, dispatch on the action vocabulary
started/application-paused/application-unpaused/finished. -/
def processEvent (event : StudentEvent) (st : EngineState) : EngineState :=
  let id := event.classId
  let key := toString id ++ "-" ++ event.taskId
  if event.action = "started" then
    { st with activeSessions := startSession key event.client_time st.activeSessions }
  else if event.action = "application-paused" then
    { st with activeSessions := pauseSession key event.client_time st.activeSessions }
  else if event.action = "application-unpaused" then
    { st with activeSessions := unpauseSession key event.client_time st.activeSessions }
  else if event.action = "finished" then
    let r := finishSession key event.client_time st.activeSessions
      st.timeOnTask id
    { activeSessions := r.1, timeOnTask := r.2 }
  else st

/-- src/perClass.js `processEvents` (the call site passes `"classId"`): a
single left fold of `processEvent` over the ordered event list, starting
from empty maps. -/
def processEvents (events : List StudentEvent) : EngineState :=
  List.foldl (fun st event => processEvent event st) initialState events

end PerClass

/-! ## Association-list lemmas -/

theorem lookupKey_setKey_self {κ α : Type} [DecidableEq κ]
    (l : List (κ × α)) (k : κ) (v : α) :
    lookupKey (setKey l k v) k = some v := by
  induction l with
  | nil => simp [setKey, lookupKey]
  | cons p rest ih =>
      obtain ⟨k1, v1⟩ := p
      by_cases h : k1 = k
      · simp [setKey, lookupKey, h]
      · simp [setKey, lookupKey, h, ih]

theorem lookupKey_setKey_ne {κ α : Type} [DecidableEq κ]
    (l : List (κ × α)) (k k0 : κ) (v : α) (hne : k ≠ k0) :
    lookupKey (setKey l k v) k0 = lookupKey l k0 := by
  induction l with
  | nil => simp [setKey, lookupKey, hne]
  | cons p rest ih =>
      obtain ⟨k1, v1⟩ := p
      by_cases h : k1 = k
      · subst h
        simp [setKey, lookupKey, hne]
      · simp [setKey, lookupKey, h, ih]

theorem mem_keysOf_setKey {κ α : Type} [DecidableEq κ]
    (l : List (κ × α)) (k a : κ) (v : α)
    (h : a ∈ keysOf (setKey l k v)) : a ∈ keysOf l ∨ a = k := by
  induction l with
  | nil =>
      simp [setKey, keysOf] at h
      exact Or.inr h
  | cons p rest ih =>
      obtain ⟨k1, v1⟩ := p
      by_cases hk : k1 = k
      · subst hk
        simp [setKey, keysOf] at h ⊢
        tauto
      · simp [setKey, keysOf, hk] at h ⊢
        rcases h with h | h
        · exact Or.inl (Or.inl h)
        · rcases ih (by simpa [keysOf] using h) with h1 | h1
          · exact Or.inl (Or.inr (by simpa [keysOf] using h1))
          · exact Or.inr h1

theorem nodup_keysOf_setKey {κ α : Type} [DecidableEq κ]
    (l : List (κ × α)) (k : κ) (v : α)
    (h : (keysOf l).Nodup) : (keysOf (setKey l k v)).Nodup := by
  induction l with
  | nil => simp [setKey, keysOf]
  | cons p rest ih =>
      obtain ⟨k1, v1⟩ := p
      have h2 : k1 ∉ keysOf rest ∧ (keysOf rest).Nodup := by
        have hc : keysOf ((k1, v1) :: rest) = k1 :: keysOf rest := by simp [keysOf]
        rw [hc] at h
        exact List.nodup_cons.mp h
      by_cases hk : k1 = k
      · subst hk
        have hrw : keysOf (setKey ((k1, v1) :: rest) k1 v) = k1 :: keysOf rest := by
          simp [setKey, keysOf]
        rw [hrw]
        exact List.nodup_cons.mpr h2
      · have hrw : keysOf (setKey ((k1, v1) :: rest) k v)
            = k1 :: keysOf (setKey rest k v) := by
          simp [setKey, keysOf, hk]
        rw [hrw]
        refine List.nodup_cons.mpr ⟨?_, ih h2.2⟩
        intro hmem
        rcases mem_keysOf_setKey rest k k1 v hmem with h1 | h1
        · exact h2.1 h1
        · exact hk h1

theorem eraseKey_sublist {κ α : Type} [DecidableEq κ]
    (l : List (κ × α)) (k : κ) : (eraseKey l k).Sublist l := by
  induction l with
  | nil => simp [eraseKey]
  | cons p rest ih =>
      obtain ⟨k1, v1⟩ := p
      by_cases h : k1 = k
      · rw [show eraseKey ((k1, v1) :: rest) k = rest by simp [eraseKey, h]]
        exact List.sublist_cons_self (k1, v1) rest
      · rw [show eraseKey ((k1, v1) :: rest) k = (k1, v1) :: eraseKey rest k by
          simp [eraseKey, h]]
        exact List.Sublist.cons₂ (k1, v1) ih

theorem nodup_keysOf_eraseKey {κ α : Type} [DecidableEq κ]
    (l : List (κ × α)) (k : κ)
    (h : (keysOf l).Nodup) : (keysOf (eraseKey l k)).Nodup :=
  List.Nodup.sublist (List.Sublist.map Prod.fst (eraseKey_sublist l k)) h

theorem getD_lookupKey_setKey_ge {α : Type} [DecidableEq α]
    (m : List (α × Int)) (id id0 : α) (d : Int) (hd : 0 ≤ d) :
    (lookupKey m id0).getD 0 ≤
      (lookupKey (setKey m id ((lookupKey m id).getD 0 + d)) id0).getD 0 := by
  by_cases h : id = id0
  · subst h
    rw [lookupKey_setKey_self]
    simpa using hd
  · rw [lookupKey_setKey_ne m id id0 _ h]

/-! ## Session-table invariant lemmas for the per-student engine -/

theorem nodup_startSession (key : String) (t : Int)
    (sessions : List (String × Session)) (h : (keysOf sessions).Nodup) :
    (keysOf (PerStudent.startSession key t sessions)).Nodup := by
  unfold PerStudent.startSession
  cases lookupKey sessions key with
  | none => exact nodup_keysOf_setKey _ _ _ h
  | some s => exact h

theorem nodup_pauseSession (key : String) (t : Int)
    (sessions : List (String × Session)) (h : (keysOf sessions).Nodup) :
    (keysOf (PerStudent.pauseSession key t sessions)).Nodup := by
  unfold PerStudent.pauseSession
  cases lookupKey sessions key with
  | none => exact h
  | some s =>
      by_cases hp : s.isPaused
      · simpa [hp] using h
      · simpa [hp] using nodup_keysOf_setKey sessions key
          { s with isPaused := true, pauseStartTime := t } h

theorem nodup_unpauseSession (key : String) (t : Int)
    (sessions : List (String × Session)) (h : (keysOf sessions).Nodup) :
    (keysOf (PerStudent.unpauseSession key t sessions)).Nodup := by
  unfold PerStudent.unpauseSession
  cases lookupKey sessions key with
  | none => exact h
  | some s =>
      by_cases hp : s.isPaused
      · simpa [hp] using nodup_keysOf_setKey sessions key
          { s with pausedTime := s.pausedTime + (t - s.pauseStartTime),
                   isPaused := false } h
      · simpa [hp] using h

theorem nodup_finishSession_fst (key : String) (t : Int)
    (sessions : List (String × Session)) (timeOnTask : List (Int × Int))
    (id : Int) (h : (keysOf sessions).Nodup) :
    (keysOf (PerStudent.finishSession key t sessions timeOnTask id).1).Nodup := by
  unfold PerStudent.finishSession
  cases lookupKey sessions key with
  | none => exact h
  | some s => exact nodup_keysOf_eraseKey _ _ h

theorem nodup_processEvent (event : StudentEvent) (st : EngineState)
    (h : (keysOf st.activeSessions).Nodup) :
    (keysOf (PerStudent.processEvent event st).activeSessions).Nodup := by
  unfold PerStudent.processEvent
  dsimp only
  split
  · exact nodup_startSession _ _ _ h
  · split
    · exact nodup_pauseSession _ _ _ h
    · split
      · exact nodup_unpauseSession _ _ _ h
      · split
        · exact nodup_finishSession_fst _ _ _ _ _ h
        · exact h

theorem nodup_foldl_processEvent (events : List StudentEvent) :
    ∀ st : EngineState, (keysOf st.activeSessions).Nodup →
      (keysOf (List.foldl (fun st event => PerStudent.processEvent event st)
        st events).activeSessions).Nodup := by
  induction events with
  | nil =>
      intro st h
      simpa using h
  | cons e rest ih =>
      intro st h
      simpa [List.foldl] using ih _ (nodup_processEvent e st h)

/-! ## Claims -/

/-- C6: state-machine invariant of the per-student event fold.  At every
point of the stream there is at most one open session per key (the session
table has no duplicate keys); a paused event is a no-op unless a session is
open and not already paused, and otherwise records `pauseStartTime` and
transitions to paused; an unpaused event is a no-op unless a session is open
and currently paused, and otherwise adds the pause delta and transitions to
active. -/
theorem C6_state_machine_invariant :
    (∀ events : List StudentEvent,
        (keysOf (PerStudent.processEvents events).activeSessions).Nodup)
  ∧ (∀ (key : String) (t : Int) (sessions : List (String × Session)),
        lookupKey sessions key = none →
        PerStudent.pauseSession key t sessions = sessions)
  ∧ (∀ (key : String) (t : Int) (sessions : List (String × Session)) (s : Session),
        lookupKey sessions key = some s → s.isPaused = true →
        PerStudent.pauseSession key t sessions = sessions)
  ∧ (∀ (key : String) (t : Int) (sessions : List (String × Session)) (s : Session),
        lookupKey sessions key = some s → s.isPaused = false →
        PerStudent.pauseSession key t sessions
          = setKey sessions key { s with isPaused := true, pauseStartTime := t })
  ∧ (∀ (key : String) (t : Int) (sessions : List (String × Session)),
        lookupKey sessions key = none →
        PerStudent.unpauseSession key t sessions = sessions)
  ∧ (∀ (key : String) (t : Int) (sessions : List (String × Session)) (s : Session),
        lookupKey sessions key = some s → s.isPaused = false →
        PerStudent.unpauseSession key t sessions = sessions)
  ∧ (∀ (key : String) (t : Int) (sessions : List (String × Session)) (s : Session),
        lookupKey sessions key = some s → s.isPaused = true →
        PerStudent.unpauseSession key t sessions
          = setKey sessions key
              { s with pausedTime := s.pausedTime + (t - s.pauseStartTime),
                       isPaused := false }) := by
  refine ⟨?_, ?_, ?_, ?_, ?_, ?_, ?_⟩
  · intro events
    exact nodup_foldl_processEvent events initialState (by simp [initialState, keysOf])
  · intro key t sessions h
    unfold PerStudent.pauseSession
    rw [h]
  · intro key t sessions s h hp
    unfold PerStudent.pauseSession
    rw [h]
    simp [hp]
  · intro key t sessions s h hp
    unfold PerStudent.pauseSession
    rw [h]
    simp [hp]
  · intro key t sessions h
    unfold PerStudent.unpauseSession
    rw [h]
  · intro key t sessions s h hp
    unfold PerStudent.unpauseSession
    rw [h]
    simp [hp]
  · intro key t sessions s h hp
    unfold PerStudent.unpauseSession
    rw [h]
    simp [hp]

/-- Witness for C6 at concrete inputs: an orphan pause and unpause are no-ops,
a duplicate pause is a no-op, a pause of an active session records the pause
start, an unpause of an active session is a no-op, and an unpause of a paused
session accumulates the delta. -/
theorem C6_state_machine_invariant_witness :
    PerStudent.pauseSession "1-t" 5 [] = []
  ∧ PerStudent.pauseSession "1-t" 5
      [("1-t", ⟨0, 0, true, 3⟩)] = [("1-t", ⟨0, 0, true, 3⟩)]
  ∧ PerStudent.pauseSession "1-t" 5
      [("1-t", ⟨0, 0, false, 0⟩)] = [("1-t", ⟨0, 0, true, 5⟩)]
  ∧ PerStudent.unpauseSession "1-t" 9 [] = []
  ∧ PerStudent.unpauseSession "1-t" 9
      [("1-t", ⟨0, 0, false, 0⟩)] = [("1-t", ⟨0, 0, false, 0⟩)]
  ∧ PerStudent.unpauseSession "1-t" 9
      [("1-t", ⟨0, 0, true, 3⟩)] = [("1-t", ⟨0, 0 + (9 - 3), false, 3⟩)] := by
  refine ⟨C6_state_machine_invariant.2.1 "1-t" 5 [] rfl,
          C6_state_machine_invariant.2.2.1 "1-t" 5 _ ⟨0, 0, true, 3⟩ ?_ rfl,
          ?_, C6_state_machine_invariant.2.2.2.2.1 "1-t" 9 [] rfl, ?_, ?_⟩
  · simp [lookupKey]
  · have h := C6_state_machine_invariant.2.2.2.1 "1-t" 5
      [("1-t", ⟨0, 0, false, 0⟩)] ⟨0, 0, false, 0⟩ (by simp [lookupKey]) rfl
    simpa [setKey] using h
  · exact C6_state_machine_invariant.2.2.2.2.2.1 "1-t" 9 _ ⟨0, 0, false, 0⟩
      (by simp [lookupKey]) rfl
  · have h := C6_state_machine_invariant.2.2.2.2.2.2 "1-t" 9
      [("1-t", ⟨0, 0, true, 3⟩)] ⟨0, 0, true, 3⟩ (by simp [lookupKey]) rfl
    simpa [setKey] using h

/-- C1: in the per-student engine the duration contributed by a finished
session equals (endTime - startTime) - accumulatedPauseDuration, where the
accumulated pause duration is the completed pause/unpause delta; for the
event sequence started(t0), paused(t1), unpaused(t2), finished(t3) on one
key (with a positive span that is not exceeded by the pause time) the
contribution is (t3 - t0) - (t2 - t1), in particular 15 seconds for
started(0), paused(10), unpaused(15), finished(20). -/
theorem C1_pause_subtraction (t0 t1 t2 t3 : Int) (h03 : t0 < t3)
    (hp : t2 - t1 ≤ t3 - t0) :
    (PerStudent.processEvents
      [⟨1, 1, "t", "started", t0⟩, ⟨1, 1, "t", "paused", t1⟩,
       ⟨1, 1, "t", "unpaused", t2⟩, ⟨1, 1, "t", "finished", t3⟩]).timeOnTask
      = [(1, (t3 - t0) - (t2 - t1))] := by
  have hne : t3 - t0 ≠ 0 := by omega
  simp only [PerStudent.processEvents, List.foldl]
  simp [PerStudent.processEvent, PerStudent.startSession, PerStudent.pauseSession,
        PerStudent.unpauseSession, PerStudent.finishSession, lookupKey, setKey,
        eraseKey, initialState, h03, hne]
  omega

/-- Witness for C1: the scenario started(0), paused(10), unpaused(15),
finished(20) contributes exactly 15 seconds. -/
theorem C1_pause_subtraction_witness :
    (PerStudent.processEvents
      [⟨1, 1, "t", "started", 0⟩, ⟨1, 1, "t", "paused", 10⟩,
       ⟨1, 1, "t", "unpaused", 15⟩, ⟨1, 1, "t", "finished", 20⟩]).timeOnTask
      = [(1, 15)] := by
  have h := C1_pause_subtraction 0 10 15 20 (by decide) (by decide)
  norm_num at h
  exact h

/-- C3: duplicate start is idempotent in the per-student engine.  For every
user, task and timestamps t1 < t2 < t3, the event sequence started(t1),
started(t2), finished(t3) produces exactly the same final state (session
table and all totals, hence the same contributed duration) as started(t1),
finished(t3): the second started is swallowed while a session is open. -/
theorem C3_idempotent_duplicate_start (u : Int) (task : String)
    (t1 t2 t3 : Int) (_h12 : t1 < t2) (_h23 : t2 < t3) :
    PerStudent.processEvents
      [⟨u, 0, task, "started", t1⟩, ⟨u, 0, task, "started", t2⟩,
       ⟨u, 0, task, "finished", t3⟩]
      = PerStudent.processEvents
        [⟨u, 0, task, "started", t1⟩, ⟨u, 0, task, "finished", t3⟩] := by
  have hstep : PerStudent.processEvent ⟨u, 0, task, "started", t2⟩
      (PerStudent.processEvent ⟨u, 0, task, "started", t1⟩ initialState)
      = PerStudent.processEvent ⟨u, 0, task, "started", t1⟩ initialState := by
    simp [PerStudent.processEvent, PerStudent.startSession, lookupKey, setKey,
          initialState]
  unfold PerStudent.processEvents
  simp only [List.foldl]
  rw [hstep]

/-- Witness for C3 at t1 = 2, t2 = 5, t3 = 9. -/
theorem C3_idempotent_duplicate_start_witness :
    PerStudent.processEvents
      [⟨7, 0, "a", "started", 2⟩, ⟨7, 0, "a", "started", 5⟩,
       ⟨7, 0, "a", "finished", 9⟩]
      = PerStudent.processEvents
        [⟨7, 0, "a", "started", 2⟩, ⟨7, 0, "a", "finished", 9⟩] :=
  C3_idempotent_duplicate_start 7 "a" 2 5 9 (by decide) (by decide)

/-- C4: an orphan finished event (no open session for its key) contributes
zero duration and leaves both the session table and every total unchanged,
in the per-student engine and in the combined engine; in particular the
single event finished(5) processed from the empty state yields empty totals
and an empty session table. -/
theorem C4_orphan_finish :
    (PerStudent.processEvents [⟨1, 1, "t", "finished", 5⟩] = initialState)
  ∧ (∀ (key : String) (e : Int) (sessions : List (String × Session))
        (timeOnTask : List (Int × Int)) (id : Int),
        lookupKey sessions key = none →
        PerStudent.finishSession key e sessions timeOnTask id
          = (sessions, timeOnTask))
  ∧ (∀ (key : String) (e : Int) (sessions : List (String × Session))
        (timeOnTask : List (Int × Int)) (id : Int),
        lookupKey sessions key = none →
        Combined.finishSession key e sessions timeOnTask id
          = (sessions, timeOnTask)) := by
  refine ⟨by decide, ?_, ?_⟩
  · intro key e sessions timeOnTask id h
    unfold PerStudent.finishSession
    rw [h]
  · intro key e sessions timeOnTask id h
    unfold Combined.finishSession
    rw [h]

/-- Witness for C4: an orphan finish at concrete inputs is a no-op in both
engines. -/
theorem C4_orphan_finish_witness :
    PerStudent.finishSession "1-t" 5 [] [(3, 40)] 1 = ([], [(3, 40)])
  ∧ Combined.finishSession "1-t" 5 [] [(3, 40)] 1 = ([], [(3, 40)]) :=
  ⟨C4_orphan_finish.2.1 "1-t" 5 [] [(3, 40)] 1 rfl,
   C4_orphan_finish.2.2 "1-t" 5 [] [(3, 40)] 1 rfl⟩

/-- C5: for every finished session judged valid, the amount added to the
total of the finishing identifier is max(0, (endTime - startTime) -
accumulatedPauseDuration), and no identifier's running total decreases —
in the per-student engine and in the combined engine. -/
theorem C5_nonnegative_floor :
    (∀ (key : String) (e : Int) (sessions : List (String × Session))
        (timeOnTask : List (Int × Int)) (id : Int) (s : Session),
        lookupKey sessions key = some s → s.startTime < e →
        (PerStudent.finishSession key e sessions timeOnTask id).2
            = setKey timeOnTask id
                ((lookupKey timeOnTask id).getD 0
                  + max 0 (e - s.startTime - s.pausedTime))
          ∧ ∀ id0 : Int,
              (lookupKey timeOnTask id0).getD 0
                ≤ (lookupKey (PerStudent.finishSession key e sessions
                    timeOnTask id).2 id0).getD 0)
  ∧ (∀ (key : String) (e : Int) (sessions : List (String × Session))
        (timeOnTask : List (Int × Int)) (id : Int) (s : Session),
        lookupKey sessions key = some s → s.startTime < e →
        e - s.startTime < 3600 →
        (Combined.finishSession key e sessions timeOnTask id).2
            = setKey timeOnTask id
                ((lookupKey timeOnTask id).getD 0
                  + max 0 (e - s.startTime - s.pausedTime))
          ∧ ∀ id0 : Int,
              (lookupKey timeOnTask id0).getD 0
                ≤ (lookupKey (Combined.finishSession key e sessions
                    timeOnTask id).2 id0).getD 0) := by
  constructor
  · intro key e sessions timeOnTask id s h hlt
    have heq : (PerStudent.finishSession key e sessions timeOnTask id).2
        = setKey timeOnTask id
            ((lookupKey timeOnTask id).getD 0
              + max 0 (e - s.startTime - s.pausedTime)) := by
      unfold PerStudent.finishSession
      rw [h]
      have hcond : e > s.startTime ∧ e - s.startTime ≠ 0 := ⟨hlt, by omega⟩
      simp [hcond]
    refine ⟨heq, fun id0 => ?_⟩
    rw [heq]
    exact getD_lookupKey_setKey_ge timeOnTask id id0 _ (le_max_left 0 _)
  · intro key e sessions timeOnTask id s h hlt hcap
    have heq : (Combined.finishSession key e sessions timeOnTask id).2
        = setKey timeOnTask id
            ((lookupKey timeOnTask id).getD 0
              + max 0 (e - s.startTime - s.pausedTime)) := by
      unfold Combined.finishSession
      rw [h]
      have hcond : e > s.startTime ∧ e - s.startTime < 3600 := ⟨hlt, hcap⟩
      simp [hcond]
    refine ⟨heq, fun id0 => ?_⟩
    rw [heq]
    exact getD_lookupKey_setKey_ge timeOnTask id id0 _ (le_max_left 0 _)

/-- Witness for C5: a session whose accumulated pause time (9) exceeds its
span (4) contributes the clamp value 0 in both engines, leaving the stored
total at its previous value. -/
theorem C5_nonnegative_floor_witness :
    (PerStudent.finishSession "1-t" 6 [("1-t", ⟨2, 9, false, 3⟩)] [(1, 11)] 1).2
      = [(1, 11 + max 0 (6 - 2 - 9))]
  ∧ (Combined.finishSession "1-t" 6 [("1-t", ⟨2, 9, false, 3⟩)] [(1, 11)] 1).2
      = [(1, 11 + max 0 (6 - 2 - 9))] := by
  constructor
  · have h := (C5_nonnegative_floor.1 "1-t" 6 [("1-t", ⟨2, 9, false, 3⟩)]
      [(1, 11)] 1 ⟨2, 9, false, 3⟩ (by simp [lookupKey]) (by decide)).1
    simpa [setKey, lookupKey] using h
  · have h := (C5_nonnegative_floor.2 "1-t" 6 [("1-t", ⟨2, 9, false, 3⟩)]
      [(1, 11)] 1 ⟨2, 9, false, 3⟩ (by simp [lookupKey]) (by decide) (by decide)).1
    simpa [setKey, lookupKey] using h

/-- C7: a finished event whose key has an open session removes that session
from the session table unconditionally — also when the duration is judged
invalid — and in the invalid case no total is created or changed, in the
per-student engine and in the combined engine. -/
theorem C7_unconditional_discard :
    (∀ (key : String) (e : Int) (sessions : List (String × Session))
        (timeOnTask : List (Int × Int)) (id : Int) (s : Session),
        lookupKey sessions key = some s →
        (PerStudent.finishSession key e sessions timeOnTask id).1
            = eraseKey sessions key
          ∧ (¬(e > s.startTime ∧ e - s.startTime ≠ 0) →
              (PerStudent.finishSession key e sessions timeOnTask id).2
                = timeOnTask))
  ∧ (∀ (key : String) (e : Int) (sessions : List (String × Session))
        (timeOnTask : List (Int × Int)) (id : Int) (s : Session),
        lookupKey sessions key = some s →
        (Combined.finishSession key e sessions timeOnTask id).1
            = eraseKey sessions key
          ∧ (¬(e > s.startTime ∧ e - s.startTime < 3600) →
              (Combined.finishSession key e sessions timeOnTask id).2
                = timeOnTask)) := by
  constructor
  · intro key e sessions timeOnTask id s h
    constructor
    · unfold PerStudent.finishSession
      rw [h]
    · intro hinvalid
      unfold PerStudent.finishSession
      rw [h]
      simp only
      rw [if_neg hinvalid]
  · intro key e sessions timeOnTask id s h
    constructor
    · unfold Combined.finishSession
      rw [h]
    · intro hinvalid
      unfold Combined.finishSession
      rw [h]
      simp only
      rw [if_neg hinvalid]

/-- Witness for C7: finishing an open session with a non-positive span
(endTime equal to startTime) removes the session and leaves the totals
untouched in both engines; finishing one with a 3600-second span is invalid
in the combined engine only. -/
theorem C7_unconditional_discard_witness :
    (PerStudent.finishSession "1-t" 4 [("1-t", ⟨4, 0, false, 0⟩)] [(3, 8)] 1).1
      = eraseKey [("1-t", ⟨4, 0, false, 0⟩)] "1-t"
  ∧ (PerStudent.finishSession "1-t" 4 [("1-t", ⟨4, 0, false, 0⟩)] [(3, 8)] 1).2
      = [(3, 8)]
  ∧ (Combined.finishSession "1-t" 3600 [("1-t", ⟨0, 0, false, 0⟩)] [(3, 8)] 1).1
      = eraseKey [("1-t", ⟨0, 0, false, 0⟩)] "1-t"
  ∧ (Combined.finishSession "1-t" 3600 [("1-t", ⟨0, 0, false, 0⟩)] [(3, 8)] 1).2
      = [(3, 8)] := by
  have h1 := C7_unconditional_discard.1 "1-t" 4 [("1-t", ⟨4, 0, false, 0⟩)]
    [(3, 8)] 1 ⟨4, 0, false, 0⟩ (by simp [lookupKey])
  have h2 := C7_unconditional_discard.2 "1-t" 3600 [("1-t", ⟨0, 0, false, 0⟩)]
    [(3, 8)] 1 ⟨0, 0, false, 0⟩ (by simp [lookupKey])
  exact ⟨h1.1, h1.2 (by decide), h2.1, h2.2 (by decide)⟩

/-- C2: the session-span validity bound differs by path.  In the combined
(class) aggregation path, started(0) followed by finished(4000) on one key
contributes nothing (the totals stay empty), while the per-student path
credits the full 4000 seconds; in general the per-student check accepts any
positive span, while the combined check rejects every span of 3600 seconds
or more. -/
theorem C2_span_cap_asymmetry :
    ((Combined.processEvents
        [⟨1, 7, "t", "started", 0⟩, ⟨1, 7, "t", "finished", 4000⟩]
        IdField.classId).timeOnTask = []
      ∧ (PerStudent.processEvents
          [⟨1, 7, "t", "started", 0⟩, ⟨1, 7, "t", "finished", 4000⟩]).timeOnTask
          = [(1, 4000)])
  ∧ (∀ (key : String) (start e id : Int), start < e →
      (PerStudent.finishSession key e [(key, ⟨start, 0, false, 0⟩)] [] id).2
        = [(id, e - start)])
  ∧ (∀ (key : String) (start e id : Int), 3600 ≤ e - start →
      (Combined.finishSession key e [(key, ⟨start, 0, false, 0⟩)] [] id).2
        = []) := by
  refine ⟨⟨by decide, by decide⟩, ?_, ?_⟩
  · intro key start e id h
    have hcond : e > start ∧ e - start ≠ 0 := ⟨h, by omega⟩
    unfold PerStudent.finishSession
    simp [lookupKey, setKey, hcond]
    omega
  · intro key start e id h
    have hcond : ¬(e > start ∧ e - start < 3600) := by omega
    unfold Combined.finishSession
    simp [lookupKey, setKey, hcond]

/-- Witness for C2: a 4000-second span is credited in full by the
per-student finish and dropped by the combined finish. -/
theorem C2_span_cap_asymmetry_witness :
    (PerStudent.finishSession "9-t" 4000 [("9-t", ⟨0, 0, false, 0⟩)] [] 9).2
      = [(9, 4000)]
  ∧ (Combined.finishSession "9-t" 4000 [("9-t", ⟨0, 0, false, 0⟩)] [] 9).2
      = [] := by
  constructor
  · have h := C2_span_cap_asymmetry.2.1 "9-t" 0 4000 9 (by decide)
    simpa using h
  · exact C2_span_cap_asymmetry.2.2 "9-t" 0 4000 9 (by decide)

/-- C9: end-to-end per-student scenario.  The four events (userId 1, task
"t"): started(0), paused(5), unpaused(8), finished(20), run through the
per-student engine and formatter, yield exactly one record with userId 1 and
the zero-padded clock string "00:00:17" for the 17 total seconds. -/
theorem C9_end_to_end_scenario :
    PerStudent.formatTimeOnTaskResult
      (PerStudent.processEvents
        [⟨1, 1, "t", "started", 0⟩, ⟨1, 1, "t", "paused", 5⟩,
         ⟨1, 1, "t", "unpaused", 8⟩, ⟨1, 1, "t", "finished", 20⟩]).timeOnTask
      = [{ userId := 1, totalTimeOnTask := "00:00:17" }] := by
  decide

/-- C10: the class-dimension computation of the combined entry point and the
standalone per-class entry point are equivalent: for every event list they
produce identical states, in particular identical per-class total mappings. -/
theorem C10_combined_perClass_equivalence (events : List StudentEvent) :
    Combined.processEvents events IdField.classId
      = PerClass.processEvents events := rfl

/-- C8 counterexample: entity 2's first valid contribution precedes entity
1's in the stream (the total map's insertion order is [2, 1]), yet the
result projection lists entity 1 before entity 2 — `Object.entries`
enumerates integer-like property keys in ascending numeric order, not in
insertion order. -/
theorem C8_insertion_order_counterexample :
    (PerStudent.processEvents
      [⟨2, 0, "t", "started", 0⟩, ⟨2, 0, "t", "finished", 10⟩,
       ⟨1, 0, "t", "started", 0⟩, ⟨1, 0, "t", "finished", 10⟩]).timeOnTask
      = [(2, 10), (1, 10)]
  ∧ ((PerStudent.formatTimeOnTaskResult
      (PerStudent.processEvents
        [⟨2, 0, "t", "started", 0⟩, ⟨2, 0, "t", "finished", 10⟩,
         ⟨1, 0, "t", "started", 0⟩, ⟨1, 0, "t", "finished", 10⟩]).timeOnTask).map
        fun r => r.userId)
      = [1, 2] :=
  ⟨by decide, by decide⟩

/-- C8 (amended): the result projection lists the {entityId, total} pairs in
ascending numeric order of entityId whenever every entity id is an
ECMAScript array-index key (a non-negative integer below 2^32 - 1, the case
for the database's integer identifiers) — not in insertion order of first
contribution. -/
theorem C8_ascending_id_order (m : List (Int × Int))
    (h : ∀ k ∈ keysOf m, isArrayIndex k = true) :
    List.Sorted (· ≤ ·)
      ((PerStudent.formatTimeOnTaskResult m).map fun r => r.userId) := by
  have hfilter1 : m.filter (fun p => isArrayIndex p.1) = m :=
    List.filter_eq_self.mpr fun p hp => h p.1 (List.mem_map_of_mem Prod.fst hp)
  have hfilter2 : m.filter (fun p => !isArrayIndex p.1) = [] :=
    List.filter_eq_nil_iff.mpr fun p hp => by
      simp [h p.1 (List.mem_map_of_mem Prod.fst hp)]
  have hmap : ((PerStudent.formatTimeOnTaskResult m).map fun r => r.userId)
      = (entriesJS m).map Prod.fst := by
    simp [PerStudent.formatTimeOnTaskResult, List.map_map]
  rw [hmap]
  unfold entriesJS
  rw [hfilter1, hfilter2, List.append_nil]
  have hsorted : List.Pairwise keyLE (sortByKey m) :=
    List.sorted_insertionSort keyLE m
  unfold List.Sorted
  rw [List.pairwise_map]
  exact hsorted

/-- Witness for the amended C8 at the concrete total map [(2, 10), (1, 10)]:
the formatted output is sorted by ascending id. -/
theorem C8_ascending_id_order_witness :
    List.Sorted (· ≤ ·)
      ((PerStudent.formatTimeOnTaskResult [(2, 10), (1, 10)]).map
        fun r => r.userId) :=
  C8_ascending_id_order [(2, 10), (1, 10)] (by decide)
